import Mathlib

/-!
Verification of the flowchart graph editor of the ESP32 PLC GUI.

The development shallowly embeds the block/port/wire data model, the canvas
editing operations, the project serializer (export/import over a JSON-like
document type) and the auto-routing geometry, translated from:
  src/editor/draggable_block.py, src/editor/start_block.py,
  src/editor/auto_routed_wire.py, src/editor/wire_segment.py,
  src/editor/flowchart_canvas.py, src/utils/validators.py, src/Main.py.
Python floating-point arithmetic is modelled by exact rational arithmetic.
-/

namespace ESP32PLC

/-- A scene point with rational coordinates.  The source manipulates Qt
QPointF values (floating point); the embedding models the arithmetic exactly
with rationals. -/
structure Pt where
  x : ℚ
  y : ℚ
deriving DecidableEq, Repr

instance : Sub Pt := ⟨fun a b => ⟨a.x - b.x, a.y - b.y⟩⟩

/-- QPointF.manhattanLength: the sum of the absolute values of the
coordinates. -/
def Pt.manhattanLength (p : Pt) : ℚ := |p.x| + |p.y|

/-- Exact square root on rationals whose square root is rational.  The source
computes Euclidean leg lengths with math.sqrt; every leg that update_path
passes to _add_rounded_path is axis aligned, so its squared length is a
perfect rational square and this function computes the exact square root. -/
def sqrtQ (q : ℚ) : ℚ := (Nat.sqrt q.num.toNat : ℚ) / (Nat.sqrt q.den : ℚ)

/-- One QPainterPath drawing command appended by the wire router. -/
inductive PathCmd where
  | moveTo (p : Pt)
  | lineTo (p : Pt)
  | quadTo (c p : Pt)
deriving DecidableEq, Repr

/-- AutoRoutedWire._add_rounded_path: the drawing commands appended for a
four-point skeleton p1-p2-p3-p4 with rounded corners of the given radius.
The Python method mutates a QPainterPath (after the caller has already done
moveTo p1); the embedding returns the list of appended commands. -/
def addRoundedPath (p1 p2 p3 p4 : Pt) (radius : ℚ) : List PathCmd :=
  if (p2 - p1).manhattanLength > radius * 2 then
    let direction := p2 - p1
    let length := sqrtQ (direction.x ^ 2 + direction.y ^ 2)
    if length > 0 then
      let unitDir : Pt := ⟨direction.x / length, direction.y / length⟩
      let cornerStart : Pt := ⟨p2.x - unitDir.x * radius, p2.y - unitDir.y * radius⟩
      if (p3 - p2).manhattanLength > radius * 2 then
        let direction2 := p3 - p2
        let length2 := sqrtQ (direction2.x ^ 2 + direction2.y ^ 2)
        if length2 > 0 then
          let unitDir2 : Pt := ⟨direction2.x / length2, direction2.y / length2⟩
          let cornerEnd : Pt := ⟨p2.x + unitDir2.x * radius, p2.y + unitDir2.y * radius⟩
          if (p4 - p3).manhattanLength > radius * 2 then
            let direction3 := p4 - p3
            let length3 := sqrtQ (direction3.x ^ 2 + direction3.y ^ 2)
            if length3 > 0 then
              let unitDir3 : Pt := ⟨direction3.x / length3, direction3.y / length3⟩
              let cornerStart2 : Pt := ⟨p3.x - unitDir2.x * radius, p3.y - unitDir2.y * radius⟩
              let cornerEnd2 : Pt := ⟨p3.x + unitDir3.x * radius, p3.y + unitDir3.y * radius⟩
              [.lineTo cornerStart, .quadTo p2 cornerEnd, .lineTo cornerStart2,
               .quadTo p3 cornerEnd2, .lineTo p4]
            else
              [.lineTo cornerStart, .quadTo p2 cornerEnd, .lineTo p3, .lineTo p4]
          else
            [.lineTo cornerStart, .quadTo p2 cornerEnd, .lineTo p3, .lineTo p4]
        else
          [.lineTo cornerStart, .lineTo p2, .lineTo p3, .lineTo p4]
      else
        [.lineTo cornerStart, .lineTo p2, .lineTo p3, .lineTo p4]
    else
      [.lineTo p2, .lineTo p3, .lineTo p4]
  else
    [.lineTo p2, .lineTo p3, .lineTo p4]

/-- AutoRoutedWire.update_path: the full command list of the routed path
between the two wire endpoints (the source then installs it with setPath).
The unused local min_route_distance of the source is omitted. -/
def updatePath (start endPt : Pt) : List PathCmd :=
  let dx := endPt.x - start.x
  let dy := endPt.y - start.y
  let cornerRadius : ℚ := 15
  if |dx| < 10 ∧ |dy| < 10 then
    [.moveTo start, .lineTo endPt]
  else if |dx| < 10 then
    [.moveTo start, .lineTo endPt]
  else if |dy| < 10 then
    [.moveTo start, .lineTo endPt]
  else if |dx| > |dy| then
    let midX := start.x + dx * (6 / 10)
    .moveTo start :: addRoundedPath start ⟨midX, start.y⟩ ⟨midX, endPt.y⟩ endPt cornerRadius
  else
    let midY := start.y + dy * (6 / 10)
    .moveTo start :: addRoundedPath start ⟨start.x, midY⟩ ⟨endPt.x, midY⟩ endPt cornerRadius

/-- The points named by a drawing command (for quadTo both the control point
and the endpoint). -/
def PathCmd.namedPoints : PathCmd → List Pt
  | .moveTo p => [p]
  | .lineTo p => [p]
  | .quadTo c p => [c, p]

/-- The pen position after a drawing command executes. -/
def PathCmd.target : PathCmd → Pt
  | .moveTo p => p
  | .lineTo p => p
  | .quadTo _ p => p

/-- All points named along a command list. -/
def pathPoints (l : List PathCmd) : List Pt := l.flatMap PathCmd.namedPoints

/-- Membership of a point on the closed segment from a to b, stated
parametrically per coordinate. -/
def onSeg (a b p : Pt) : Prop :=
  ∃ t : ℚ, 0 ≤ t ∧ t ≤ 1 ∧ p.x = a.x + t * (b.x - a.x) ∧ p.y = a.y + t * (b.y - a.y)

/-- The horizontal-first three-leg skeleton of claim C8: first leg from the
start horizontally to the bend abscissa at start.x + 0.6 * dx, then the
vertical leg, then horizontally to the end. -/
def onThreeLegsH (s e p : Pt) : Prop :=
  onSeg s ⟨s.x + (e.x - s.x) * (6 / 10), s.y⟩ p ∨
  onSeg ⟨s.x + (e.x - s.x) * (6 / 10), s.y⟩ ⟨s.x + (e.x - s.x) * (6 / 10), e.y⟩ p ∨
  onSeg ⟨s.x + (e.x - s.x) * (6 / 10), e.y⟩ e p

/-- The vertical-first three-leg skeleton of claim C8: first leg from the
start vertically to the bend ordinate at start.y + 0.6 * dy, then the
horizontal leg, then vertically to the end. -/
def onThreeLegsV (s e p : Pt) : Prop :=
  onSeg s ⟨s.x, s.y + (e.y - s.y) * (6 / 10)⟩ p ∨
  onSeg ⟨s.x, s.y + (e.y - s.y) * (6 / 10)⟩ ⟨e.x, s.y + (e.y - s.y) * (6 / 10)⟩ p ∨
  onSeg ⟨e.x, s.y + (e.y - s.y) * (6 / 10)⟩ e p

/-- A JSON-compatible value: the project document type produced by
get_project_data and consumed by validate_project_data and load_project. -/
inductive JVal where
  | null
  | bool (b : Bool)
  | num (q : ℚ)
  | str (s : String)
  | arr (xs : List JVal)
  | obj (kvs : List (String × JVal))

mutual
/-- Python equality on document values: booleans compare numerically with
numbers (True == 1), lists compare elementwise.  Dict equality is modelled
structurally; the embedded operations never compare dicts (dict-valued map
keys are unhashable and rejected before any comparison). -/
def JVal.pyEq : JVal → JVal → Bool
  | .null, .null => true
  | .bool a, .bool b => a == b
  | .bool a, .num q => (if a then (1 : ℚ) else 0) == q
  | .num q, .bool a => q == (if a then (1 : ℚ) else 0)
  | .num a, .num b => a == b
  | .str a, .str b => a == b
  | .arr a, .arr b => JVal.pyEqList a b
  | .obj a, .obj b => JVal.pyEqObj a b
  | _, _ => false

/-- Elementwise Python equality of two lists of document values. -/
def JVal.pyEqList : List JVal → List JVal → Bool
  | [], [] => true
  | a :: xs, b :: ys => JVal.pyEq a b && JVal.pyEqList xs ys
  | _, _ => false

/-- Entrywise Python equality of two key-value lists. -/
def JVal.pyEqObj : List (String × JVal) → List (String × JVal) → Bool
  | [], [] => true
  | (k1, v1) :: xs, (k2, v2) :: ys => k1 == k2 && JVal.pyEq v1 v2 && JVal.pyEqObj xs ys
  | _, _ => false
end

/-- Python truthiness of a document value. -/
def JVal.truthy : JVal → Bool
  | .null => false
  | .bool b => b
  | .num q => q != 0
  | .str s => s != ""
  | .arr xs => !xs.isEmpty
  | .obj kvs => !kvs.isEmpty

/-- Whether the value is a dict. -/
def JVal.isObj : JVal → Bool
  | .obj _ => true
  | _ => false

/-- Python dict .get(key) for string keys (first matching entry; parsed JSON
objects have unique keys). -/
def jGet : JVal → String → Option JVal
  | .obj kvs, k => kvs.lookup k
  | _, _ => none

/-- Whether the value may be used as a dict key (lists and dicts are
unhashable and raise TypeError). -/
def JVal.hashable : JVal → Bool
  | .arr _ => false
  | .obj _ => false
  | _ => true

/-- Python numeric reading of a value (bool is an int subtype). -/
def jNum? : JVal → Option ℚ
  | .num q => some q
  | .bool b => some (if b then 1 else 0)
  | _ => none

/-- Python iteration over a document value: lists yield their elements,
strings yield one-character strings, dicts yield their keys; numbers,
booleans and None are not iterable (TypeError). -/
def jIterate : JVal → Option (List JVal)
  | .arr xs => some xs
  | .str s => some (s.toList.map fun c => .str (String.mk [c]))
  | .obj kvs => some (kvs.map fun kv => .str kv.1)
  | _ => none

/-- Reading an indexable pair of numbers (v[0], v[1]), as done for position,
size and point entries; any other shape raises in the source and makes the
whole record be skipped. -/
def jPair? : JVal → Option (ℚ × ℚ)
  | .arr (a :: b :: _) =>
    match jNum? a, jNum? b with
    | some qa, some qb => some (qa, qb)
    | _, _ => none
  | _ => none

/-- The keys of the ports dict every DraggableBlock builds: top, left,
right, bottom.  StartBlock hides all but bottom visually but keeps all four
entries. -/
def portNames : List String := ["top", "left", "right", "bottom"]

/-- DraggableBlock state relevant to the graph model.  bid models Python
object identity (id()); in_wires and out_wires hold the identities of the
incident wire objects, x and y the scene position of the block and w and h
its _rect size. -/
structure Block where
  bid : ℕ
  isStart : Bool
  text : String
  x : ℚ
  y : ℚ
  w : ℚ
  h : ℚ
  input_ports : List String
  output_port : Option String
  in_wires : List ℕ
  out_wires : List ℕ
deriving DecidableEq

/-- A placed wire (WireSegment or AutoRoutedWire) with its endpoint
references and geometry payload. -/
structure Wire where
  wid : ℕ
  isSegment : Bool
  from_bid : ℕ
  from_port : String
  to_bid : ℕ
  to_port : String
  points : List Pt
  start_point : Pt
  end_point : Pt
deriving DecidableEq

/-- The scene state of FlowchartCanvas: the block and wire collections plus
fresh-identity counters (modelling Python object allocation) and the grid
size. -/
structure Canvas where
  blocks : List Block
  wires : List Wire
  nextBid : ℕ
  nextWid : ℕ
  cols : ℕ
  rows : ℕ
deriving DecidableEq

/-- DraggableBlock.__init__ with the given rect size and label text: all
four ports unassigned, no incident wires, position (0, 0) until setPos. -/
def mkDraggableBlock (bid : ℕ) (w h : ℚ) (text : String) : Block :=
  { bid, isStart := false, text, x := 0, y := 0, w, h,
    input_ports := [], output_port := none, in_wires := [], out_wires := [] }

/-- StartBlock.__init__: a DraggableBlock with rect 80 x 40 and text START
(the non-bottom ports are hidden, not removed). -/
def mkStartBlock (bid : ℕ) : Block :=
  { mkDraggableBlock bid 80 40 "START" with isStart := true }

/-- DraggableBlock.setText (the recentering is visual). -/
def setText (b : Block) (t : String) : Block := { b with text := t }

/-- QGraphicsItem.setPos. -/
def setBlockPos (b : Block) (px py : ℚ) : Block := { b with x := px, y := py }

/-- Python set.add: no effect when the element is already present.  A Python
set is unordered; the model keeps elements in insertion order. -/
def pySetAdd (l : List String) (p : String) : List String :=
  if p ∈ l then l else l ++ [p]

/-- DraggableBlock.assign_input_port: succeeds for a port name that is a key
of the ports dict and is not the current output port. -/
def assignInputPort (b : Block) (p : String) : Block × Bool :=
  if p ∈ portNames ∧ b.output_port ≠ some p then
    ({ b with input_ports := pySetAdd b.input_ports p }, true)
  else (b, false)

/-- DraggableBlock.assign_output_port: succeeds for a port name that is a
key of the ports dict and is not currently an input port; on success the
single output slot is replaced. -/
def assignOutputPort (b : Block) (p : String) : Block × Bool :=
  if p ∈ portNames ∧ p ∉ b.input_ports then
    ({ b with output_port := some p }, true)
  else (b, false)

/-- DraggableBlock.remove_input_port. -/
def removeInputPort (b : Block) (p : String) : Block :=
  if p ∈ b.input_ports then { b with input_ports := b.input_ports.erase p } else b

/-- DraggableBlock.reset_ports: clear the input roles when no incoming wire
remains and the output role when no outgoing wire remains. -/
def resetPorts (b : Block) : Block :=
  let b1 := if b.in_wires.isEmpty then { b with input_ports := [] } else b
  if b1.out_wires.isEmpty then { b1 with output_port := none } else b1

/-- The scene position of the center of a port ellipse, from the rects set
in DraggableBlock.__init__ and the adjusted bottom port of StartBlock. -/
def portCenter (b : Block) (p : String) : Pt :=
  if b.isStart ∧ p = "bottom" then ⟨b.x + b.w / 2, b.y + b.h + 3⟩
  else if p = "top" then ⟨b.x + b.w / 2, b.y⟩
  else if p = "left" then ⟨b.x, b.y + b.h / 2⟩
  else if p = "right" then ⟨b.x + b.w, b.y + b.h / 2⟩
  else ⟨b.x + b.w / 2, b.y + b.h⟩

/-- get_block_size with load_block_config's fallback configuration: the
repository contains no templates/block_config.json, so the
FileNotFoundError fallback dictionary always applies. -/
def getBlockSize (s : String) : ℚ × ℚ :=
  if s = "Wire Router" then (75, 40) else (150, 40)

/-- Replace the block with the given identity by the image of f (Python
mutates the object in place; the model rewrites it inside the scene
list). -/
def updBlock (c : Canvas) (bid : ℕ) (f : Block → Block) : Canvas :=
  { c with blocks := c.blocks.map fun b => if b.bid = bid then f b else b }

/-- Find the scene block with the given identity. -/
def findBlock (c : Canvas) (bid : ℕ) : Option Block :=
  c.blocks.find? fun b => b.bid == bid

/-- Find the scene wire with the given identity. -/
def findWire (c : Canvas) (wid : ℕ) : Option Wire :=
  c.wires.find? fun w => w.wid == wid

/-- The per-block body of FlowchartCanvas._disconnect_wire: remove the wire
from the incident lists, remove the input role of the disconnected
destination port, and fully reset the ports when the block has no incident
wire left (otherwise only the visual port colors are refreshed). -/
def disconnectBlockStep (w : Wire) (b : Block) : Block :=
  let inRemoved := w.wid ∈ b.in_wires
  let b1 :=
    if inRemoved then
      let b2 := { b with in_wires := b.in_wires.erase w.wid }
      if w.to_port ∈ b.input_ports then removeInputPort b2 w.to_port else b2
    else b
  let outRemoved := w.wid ∈ b1.out_wires
  let b3 := if outRemoved then { b1 with out_wires := b1.out_wires.erase w.wid } else b1
  if (inRemoved ∨ outRemoved) ∧ b3.in_wires.isEmpty ∧ b3.out_wires.isEmpty then
    resetPorts b3
  else b3

/-- FlowchartCanvas._disconnect_wire (the arrowhead bookkeeping is visual
and omitted): remove the wire item from the scene and clean every block. -/
def disconnectWire (c : Canvas) (w : Wire) : Canvas :=
  { c with wires := c.wires.filter fun w2 => w2.wid != w.wid,
           blocks := c.blocks.map (disconnectBlockStep w) }

/-- Outcome of mousePressEvent hitting the named port of the given block:
either deletes an existing wire of that port (click-to-disconnect) or tries
to assign the output role and start a wire gesture.  Returns the new canvas
and the gesture source when a gesture started. -/
def pressPort (c : Canvas) (bid : ℕ) (p : String) : Canvas × Option (ℕ × String) :=
  match findBlock c bid with
  | none => (c, none)
  | some b =>
    if p ∈ portNames then
      if (b.output_port = some p ∧ ¬ b.out_wires.isEmpty) ∨
          (p ∈ b.input_ports ∧ ¬ b.in_wires.isEmpty) then
        if b.output_port = some p ∧ ¬ b.out_wires.isEmpty then
          match b.out_wires.head? with
          | some wid0 =>
            match findWire c wid0 with
            | some w => (disconnectWire c w, none)
            | none => (c, none)
          | none => (c, none)
        else
          match (b.in_wires.filterMap (findWire c)).find? (fun w => w.to_port == p) with
          | some w => (disconnectWire c w, none)
          | none => (c, none)
      else
        let r := assignOutputPort b p
        if r.2 then (updBlock c bid fun _ => r.1, some (bid, p)) else (c, none)
    else (c, none)

/-- Outcome of mouseReleaseEvent over the named port of block dstBid while a
wire gesture from src is live: on success the provisional wire is finalized
and appended to both incident lists; a miss keeps the gesture and changes
nothing. -/
def releaseOnPort (c : Canvas) (src : ℕ × String) (dstBid : ℕ) (p : String) : Canvas :=
  if dstBid = src.1 then c
  else
    match findBlock c dstBid with
    | none => c
    | some d =>
      if p ∈ portNames then
        let r := assignInputPort d p
        if r.2 then
          let startPt :=
            match findBlock c src.1 with
            | some sb => portCenter sb src.2
            | none => (⟨0, 0⟩ : Pt)
          let w : Wire :=
            { wid := c.nextWid, isSegment := false,
              from_bid := src.1, from_port := src.2,
              to_bid := dstBid, to_port := p,
              points := [], start_point := startPt, end_point := portCenter d p }
          let c1 := updBlock c dstBid fun _ => r.1
          let c2 := updBlock c1 src.1 fun sb => { sb with out_wires := sb.out_wires ++ [w.wid] }
          let c3 := updBlock c2 dstBid fun db => { db with in_wires := db.in_wires ++ [w.wid] }
          { c3 with wires := c3.wires ++ [w], nextWid := c3.nextWid + 1 }
        else c
      else c

/-- dropEvent: a new DraggableBlock with the configured size for its label
text.  The pointer position, the overlap nudge and the bounds clamp only
determine the final coordinates, which the embedding takes as parameters. -/
def dropBlock (c : Canvas) (text : String) (px py : ℚ) : Canvas :=
  let size := getBlockSize text
  let b := setBlockPos (mkDraggableBlock c.nextBid size.1 size.2 text) px py
  { c with blocks := c.blocks ++ [b], nextBid := c.nextBid + 1 }

/-- Delete-key handling for a selected block: StartBlock instances are
skipped; any other block is removed from the scene only (its wires and the
other endpoints' lists are left as they are). -/
def deleteBlock (c : Canvas) (bid : ℕ) : Canvas :=
  match findBlock c bid with
  | some b =>
    if b.isStart then c
    else { c with blocks := c.blocks.filter fun b2 => b2.bid != bid }
  | none => c

/-- FlowchartCanvas.clear_canvas: remove every block and wire and re-add a
fresh StartBlock at cell A1, scene position (cell_size, cell_size) =
(50, 50). -/
def clearCanvas (c : Canvas) : Canvas :=
  { c with blocks := [setBlockPos (mkStartBlock c.nextBid) 50 50],
           wires := [], nextBid := c.nextBid + 1 }

/-- The canvas right after FlowchartCanvas.__init__: a 78 x 130 grid and the
always-present StartBlock at (cell_size, cell_size). -/
def initCanvas : Canvas :=
  { blocks := [setBlockPos (mkStartBlock 0) 50 50], wires := [],
    nextBid := 1, nextWid := 0, cols := 78, rows := 130 }

/-- The block-creation loop of the paste handler: one fresh DraggableBlock
per buffer entry (configured size for the buffered text, buffered position
offset by (50, 50)).  Returns the canvas and the identities of the new
blocks in order. -/
def pasteBlocks (c : Canvas) (buf : List (String × ℚ × ℚ)) : Canvas × List ℕ :=
  buf.foldl
    (fun acc e =>
      let size := getBlockSize e.1
      let b := setBlockPos (mkDraggableBlock acc.1.nextBid size.1 size.2 e.1)
        (e.2.1 + 50) (e.2.2 + 50)
      ({ acc.1 with blocks := acc.1.blocks ++ [b], nextBid := acc.1.nextBid + 1 },
       acc.2 ++ [b.bid]))
    (c, [])

/-- One entry of the paste wire loop, mirroring the Python body: index
guard, port role assignment (results unchecked), then the ports dict
lookups.  A port name that is not a dict key raises KeyError there, which
aborts the remaining paste loop; the Boolean result is false in that
case. -/
def pasteWireStep (c : Canvas) (newBids : List ℕ) (e : ℕ × ℕ × String × String) :
    Canvas × Bool :=
  if h : e.1 < newBids.length ∧ e.2.1 < newBids.length then
    let srcBid := newBids.get ⟨e.1, h.1⟩
    let dstBid := newBids.get ⟨e.2.1, h.2⟩
    let fromPort := e.2.2.1
    let toPort := e.2.2.2
    let c1 := updBlock c srcBid fun b => (assignOutputPort b fromPort).1
    let c2 := updBlock c1 dstBid fun b => (assignInputPort b toPort).1
    if fromPort ∈ portNames ∧ toPort ∈ portNames then
      match findBlock c2 srcBid, findBlock c2 dstBid with
      | some sb, some db =>
        let w : Wire :=
          { wid := c2.nextWid, isSegment := false,
            from_bid := srcBid, from_port := fromPort,
            to_bid := dstBid, to_port := toPort,
            points := [],
            start_point := portCenter sb fromPort, end_point := portCenter db toPort }
        let c3 := updBlock c2 srcBid fun b => { b with out_wires := b.out_wires ++ [w.wid] }
        let c4 := updBlock c3 dstBid fun b => { b with in_wires := b.in_wires ++ [w.wid] }
        ({ c4 with wires := c4.wires ++ [w], nextWid := c4.nextWid + 1 }, true)
      | _, _ => (c2, true)
    else (c2, false)
  else (c, true)

/-- The wire loop of the paste handler, aborted by an uncaught KeyError. -/
def pasteWires (c : Canvas) (newBids : List ℕ) :
    List (ℕ × ℕ × String × String) → Canvas
  | [] => c
  | e :: rest =>
    match pasteWireStep c newBids e with
    | (c1, true) => pasteWires c1 newBids rest
    | (c1, false) => c1

/-- Paste handling of keyPressEvent: create one block per clipboard entry,
then recreate the buffered wire connections between the new blocks. -/
def pasteOp (c : Canvas) (buf : List (String × ℚ × ℚ))
    (wbuf : List (ℕ × ℕ × String × String)) : Canvas :=
  let r := pasteBlocks c buf
  pasteWires r.1 r.2 wbuf

/-- The block record emitted by get_project_data.  Python set iteration
order for list(input_ports) is unspecified; the embedding emits the
insertion-ordered element list it stores. -/
def blockRecord (b : Block) : JVal :=
  .obj [("id", .num (b.bid : ℚ)),
        ("type", .str (if b.isStart then "StartBlock" else "DraggableBlock")),
        ("text", .str b.text),
        ("position", .arr [.num b.x, .num b.y]),
        ("input_ports", .arr (b.input_ports.map JVal.str)),
        ("output_port", match b.output_port with | none => .null | some s => .str s),
        ("size", .arr [.num b.w, .num b.h])]

/-- The wire record emitted by get_project_data. -/
def wireRecord (w : Wire) : JVal :=
  .obj ([("type", .str (if w.isSegment then "WireSegment" else "AutoRoutedWire")),
         ("from_block", .num (w.from_bid : ℚ)),
         ("from_port", .str w.from_port),
         ("to_block", .num (w.to_bid : ℚ)),
         ("to_port", .str w.to_port)] ++
        (if w.isSegment then
          [("points", .arr (w.points.map fun p => .arr [.num p.x, .num p.y]))]
        else
          [("start_point", .arr [.num w.start_point.x, .num w.start_point.y]),
           ("end_point", .arr [.num w.end_point.x, .num w.end_point.y])]))

/-- FlowchartCanvas.get_project_data: the exported project document. -/
def getProjectData (c : Canvas) : JVal :=
  .obj [("version", .str "1.0"),
        ("blocks", .arr (c.blocks.map blockRecord)),
        ("wires", .arr (c.wires.map wireRecord)),
        ("canvas_size", .arr [.num (c.cols : ℚ), .num (c.rows : ℚ)])]

/-- Python equality between the live size list [w, h] and the size entry of
a block record. -/
def sizeMatches (w h : ℚ) : JVal → Bool
  | .arr [a, b] => (jNum? a == some w) && (jNum? b == some h)
  | _ => false

/-- The stored output_port entry of a record: the source assigns the raw
document value; a string is a possible port name, while None or any
non-string value can never equal a port name in any later comparison, so
the model represents both by the unassigned state. -/
def jOutParse : JVal → Option String
  | .str s => some s
  | _ => none

/-- Python set(v) for the input_ports entry.  Iterables yield a set, and an
unhashable element raises and skips the record.  The model keeps only the
string elements (Python admits other hashable elements, but they can never
equal a port name, so they are inert for every embedded operation) and
models the unordered set by the deduplicated element list. -/
def jStrSet : JVal → Option (List String)
  | .arr xs =>
    if xs.all JVal.hashable then
      some ((xs.filterMap fun v => match v with | .str s => some s | _ => none).dedup)
    else none
  | .str s => some ((s.toList.map fun c => String.mk [c]).dedup)
  | .obj kvs => some ((kvs.map Prod.fst).dedup)
  | _ => none

/-- One iteration of the block loop of load_project: the reconstructed block
for a record, or none when the source raises and skips the record.  bid is
the Python identity of the freshly constructed block object.  A non-string
output_port entry is stored raw by the source; the model maps it to the
unassigned state, which it is behaviourally equal to (it matches no port
name in any later comparison). -/
def loadBlockRecord (bd : JVal) (bid : ℕ) : Option Block :=
  if bd.isObj then
    let typeVal := (jGet bd "type").getD (.str "DraggableBlock")
    let base? : Option Block :=
      if typeVal.pyEq (.str "StartBlock") then some (mkStartBlock bid)
      else
        let textVal := (jGet bd "text").getD (.str "")
        if textVal.truthy then
          match textVal with
          | .str s =>
            let size := getBlockSize s
            some (mkDraggableBlock bid size.1 size.2 s)
          | _ => none
        else
          match jGet bd "text" with
          | none => some (mkDraggableBlock bid 150 40 "")
          | some (.str s) => some (setText (mkDraggableBlock bid 150 40 "") s)
          | some _ => none
    match base? with
    | none => none
    | some b0 =>
      let b1? : Option Block :=
        match jGet bd "position" with
        | none => some b0
        | some v =>
          match jPair? v with
          | some q => some (setBlockPos b0 q.1 q.2)
          | none => none
      match b1? with
      | none => none
      | some b1 =>
        let b2? : Option Block :=
          match jGet bd "size" with
          | none => some b1
          | some sv =>
            if sizeMatches b1.w b1.h sv then some b1
            else
              match jPair? sv with
              | some q => some { b1 with w := q.1, h := q.2 }
              | none => none
        match b2? with
        | none => none
        | some b2 =>
          let b3? : Option Block :=
            match jGet bd "input_ports" with
            | none => some b2
            | some v =>
              match jStrSet v with
              | some fs => some { b2 with input_ports := fs }
              | none => none
          match b3? with
          | none => none
          | some b3 =>
            some
              (match jGet bd "output_port" with
              | none => b3
              | some v => { b3 with output_port := jOutParse v })
  else none

/-- Python dict assignment block_id_map[key] = block (replace semantics). -/
def mapInsert (m : List (JVal × ℕ)) (k : JVal) (bid : ℕ) : List (JVal × ℕ) :=
  (m.filter fun e => !(e.1.pyEq k)) ++ [(k, bid)]

/-- Python block_id_map.get(key). -/
def mapLookup (m : List (JVal × ℕ)) (k : JVal) : Option ℕ :=
  (m.find? fun e => e.1.pyEq k).map Prod.snd

/-- The block loop of load_project: reconstruct blocks in document order
while building the id-to-block map; records that raise are skipped.  A
record whose id entry is unhashable has its block added to the scene (the
source adds it first) but raises before the map insertion. -/
def loadBlocks (c : Canvas) (m : List (JVal × ℕ)) :
    List JVal → Canvas × List (JVal × ℕ)
  | [] => (c, m)
  | bd :: rest =>
    match loadBlockRecord bd c.nextBid with
    | none => loadBlocks c m rest
    | some b =>
      let c1 := { c with blocks := c.blocks ++ [b], nextBid := c.nextBid + 1 }
      let key := (jGet bd "id").getD .null
      if key.hashable then loadBlocks c1 (mapInsert m key b.bid) rest
      else loadBlocks c1 m rest

/-- The wire-type dispatch and geometry parsing section of the wire loop of
load_project: an AutoRoutedWire takes its two endpoints from the record (or
(0,0) defaults) and any other type value builds a WireSegment from the
points entry (or its default two points); none models a raised-and-caught
parse error that skips the record. -/
def parseWireGeom (wd : JVal) : Option (Bool × List Pt × Pt × Pt) :=
  let typeVal := (jGet wd "type").getD (.str "AutoRoutedWire")
  if typeVal.pyEq (.str "AutoRoutedWire") then
    match jGet wd "start_point", jGet wd "end_point" with
    | some sv, some ev =>
      match jPair? sv, jPair? ev with
      | some sq, some eq2 => some (false, [], ⟨sq.1, sq.2⟩, ⟨eq2.1, eq2.2⟩)
      | _, _ => none
    | _, _ => some (false, [], ⟨0, 0⟩, ⟨0, 0⟩)
  else
    match jGet wd "points" with
    | none => some (true, [⟨0, 0⟩, ⟨100, 100⟩], ⟨0, 0⟩, ⟨0, 0⟩)
    | some pv =>
      match jIterate pv with
      | none => none
      | some elems =>
        let pts := elems.map jPair?
        if pts.all Option.isSome then
          some (true, pts.reduceOption.map fun q => (⟨q.1, q.2⟩ : Pt), ⟨0, 0⟩, ⟨0, 0⟩)
        else none

/-- One iteration of the wire loop of load_project: resolve both endpoint
ids through the map, rebuild the wire, append it to both incident lists and
re-run the port role assignment for its endpoints.  Records that raise, or
whose endpoints do not resolve, are skipped without failing the load.  A
missing or non-string port entry is stored as None by the source; the model
stores the empty string, which like None matches no port name in any later
check. -/
def loadWireStep (c : Canvas) (m : List (JVal × ℕ)) (wd : JVal) : Canvas :=
  if wd.isObj then
    let fromKey := (jGet wd "from_block").getD .null
    let toKey := (jGet wd "to_block").getD .null
    if fromKey.hashable ∧ toKey.hashable then
      match mapLookup m fromKey, mapLookup m toKey with
      | some fromBid, some toBid =>
        match parseWireGeom wd with
        | none => c
        | some g =>
          let fromPort := match jGet wd "from_port" with | some (.str s) => s | _ => ""
          let toPort := match jGet wd "to_port" with | some (.str s) => s | _ => ""
          let w : Wire :=
            { wid := c.nextWid, isSegment := g.1,
              from_bid := fromBid, from_port := fromPort,
              to_bid := toBid, to_port := toPort,
              points := g.2.1, start_point := g.2.2.1, end_point := g.2.2.2 }
          let c1 := updBlock c fromBid fun b => { b with out_wires := b.out_wires ++ [w.wid] }
          let c2 := updBlock c1 toBid fun b => { b with in_wires := b.in_wires ++ [w.wid] }
          let c3 := updBlock c2 fromBid fun b => (assignOutputPort b w.from_port).1
          let c4 := updBlock c3 toBid fun b => (assignInputPort b w.to_port).1
          { c4 with wires := c4.wires ++ [w], nextWid := c4.nextWid + 1 }
      | _, _ => c
    else c
  else c

/-- FlowchartCanvas.load_project.  The canvas is cleared first; the built-in
validation then only checks that the document is a dict containing the key
blocks.  The result is the canvas at the moment the function returns or
raises, plus the error when it raised (ValueError for the format check,
TypeError when a top-level collection is not iterable). -/
def loadProject (c : Canvas) (d : JVal) : Canvas × Option String :=
  let c1 := clearCanvas c
  if d.isObj ∧ (jGet d "blocks").isSome then
    match jIterate ((jGet d "blocks").getD (.arr [])) with
    | none => (c1, some "TypeError")
    | some bds =>
      let r := loadBlocks c1 [] bds
      match jIterate ((jGet d "wires").getD (.arr [])) with
      | none => (r.1, some "TypeError")
      | some wds => (wds.foldl (fun c0 wd => loadWireStep c0 r.2 wd) r.1, none)
  else (c1, some "Invalid project file format")

/-- validate_project_data of src/utils/validators.py as a Boolean: true
exactly when the source returns instead of raising ProjectDataError. -/
def validateProjectData (d : JVal) : Bool :=
  d.isObj &&
  (jGet d "blocks").isSome && (jGet d "wires").isSome && (jGet d "canvas_data").isSome &&
  (match jGet d "blocks" with | some (.arr _) => true | _ => false) &&
  (match jGet d "wires" with | some (.arr _) => true | _ => false) &&
  (match jGet d "canvas_data" with | some (.obj _) => true | _ => false)

/-- The application import path for an already-parsed document
(Main._load_project_data followed by _apply_project_data): the structural
validation runs before the canvas is touched, and only a validated document
reaches FlowchartCanvas.load_project.  Returns the canvas state when the
operation finishes and whether the import failed. -/
def openProjectDocument (c : Canvas) (d : JVal) : Canvas × Bool :=
  if validateProjectData d then
    match loadProject c d with
    | (c1, none) => (c1, false)
    | (c1, some _) => (c1, true)
  else (c, true)

/-- min(max(x, cs), sceneWidth - w): the horizontal clamp of
mouseMoveEvent. -/
def clampX (cs srWidth w x : ℚ) : ℚ := min (max x cs) (srWidth - w)

/-- QRectF.intersects for rectangles given by top-left corner and size: true
when the overlap area is non-empty. -/
def rectIntersects (ax ay aw ah bx bty bw bh : ℚ) : Bool :=
  decide (ax < bx + bw) && decide (bx < ax + aw) &&
  decide (ay < bty + bh) && decide (bty < ay + ah)

/-- The overlap-resolution while loop of mouseMoveEvent for one pair of an
obstructing block (rectangle ix iy iw ih) and the dragged block (size w h,
clamped ordinate y): as long as the rectangles intersect, move the dragged
block right by its width plus 10 and re-clamp its abscissa into the scene.
The source loop is unbounded; the embedding takes fuel and reports whether
the loop exited within that many iterations. -/
def overlapLoop (ix iy iw ih cs srWidth w h y : ℚ) : ℕ → ℚ → ℚ × Bool
  | 0, x => (x, false)
  | fuel + 1, x =>
    if rectIntersects ix iy iw ih x y w h then
      overlapLoop ix iy iw ih cs srWidth w h y fuel (clampX cs srWidth w (x + w + 10))
    else (x, true)

/-- The canvas states reachable through the editing operations named by
claim C2: the initial state, block drop, the wire gesture (press alone is a
cancelled gesture, press plus release a completed one), click and delete-key
wire disconnection, block deletion, paste with arbitrary clipboard content,
canvas clear, and importing a document exported from a reachable state. -/
inductive Reachable : Canvas → Prop where
  | init : Reachable initCanvas
  | drop (c : Canvas) (text : String) (px py : ℚ) :
      Reachable c → Reachable (dropBlock c text px py)
  | press (c : Canvas) (bid : ℕ) (p : String) :
      Reachable c → Reachable (pressPort c bid p).1
  | wire (c : Canvas) (bid : ℕ) (p : String) (src : ℕ × String) (dstBid : ℕ) (q : String) :
      Reachable c → (pressPort c bid p).2 = some src →
      Reachable (releaseOnPort (pressPort c bid p).1 src dstBid q)
  | deleteWire (c : Canvas) (w : Wire) :
      Reachable c → w ∈ c.wires → Reachable (disconnectWire c w)
  | deleteBlk (c : Canvas) (bid : ℕ) :
      Reachable c → Reachable (deleteBlock c bid)
  | paste (c : Canvas) (buf : List (String × ℚ × ℚ))
      (wbuf : List (ℕ × ℕ × String × String)) :
      Reachable c → Reachable (pasteOp c buf wbuf)
  | clear (c : Canvas) : Reachable c → Reachable (clearCanvas c)
  | importExport (c src : Canvas) :
      Reachable c → Reachable src →
      Reachable (loadProject c (getProjectData src)).1

/-- The port-role invariant of claim C2 for one block: no port of the single
output slot simultaneously holds the input role. -/
def portRoleInv (b : Block) : Prop :=
  ∀ s ∈ b.input_ports, b.output_port ≠ some s

/-- The port-role invariant for every block on the canvas. -/
def canvasPortInv (c : Canvas) : Prop := ∀ b ∈ c.blocks, portRoleInv b

/-- The document well-formedness required by claims C5 and C6, written from
the claim text: the document carries the three required top-level
collections with their required shapes - blocks a list, wires a list, and
the canvas-sizing/metadata object a dict. -/
def specRequiredCollections (d : JVal) : Prop :=
  (∃ xs, jGet d "blocks" = some (.arr xs)) ∧
  (∃ xs, jGet d "wires" = some (.arr xs)) ∧
  (∃ kvs, jGet d "canvas_data" = some (.obj kvs))

/-- Three dropped blocks A (bid 1), C (bid 2), B (bid 3) on the initial
canvas. -/
def c4Drop : Canvas :=
  dropBlock (dropBlock (dropBlock initCanvas "A" 500 500) "C" 900 500) "B" 700 900

/-- A wire gesture from the right port of A completed on the left port of
B. -/
def c4Mid : Canvas := releaseOnPort (pressPort c4Drop 1 "right").1 (1, "right") 3 "left"

/-- A second wire gesture from the right port of C completed on the same
left port of B: two wires now end at one input port. -/
def c4Canvas : Canvas := releaseOnPort (pressPort c4Mid 2 "right").1 (2, "right") 3 "left"

/-- The canvas after deleting the first of the two wires (the delete-key and
click-to-disconnect paths both call _disconnect_wire on the scene wire). -/
def c4After : Canvas :=
  match findWire c4Canvas 0 with
  | some w => disconnectWire c4Canvas w
  | none => c4Canvas

/-- A concrete wire value used to exercise the wire-deletion theorem. -/
def wExample : Wire :=
  { wid := 5, isSegment := false, from_bid := 1, from_port := "right",
    to_bid := 2, to_port := "left", points := [],
    start_point := ⟨0, 0⟩, end_point := ⟨0, 0⟩ }

/-- A concrete block holding the input end of wExample. -/
def bExample : Block :=
  { bid := 2, isStart := false, text := "B", x := 0, y := 0, w := 150, h := 40,
    input_ports := ["left"], output_port := none, in_wires := [5], out_wires := [] }

/-- A concrete one-block one-wire canvas. -/
def cExample : Canvas :=
  { blocks := [bExample], wires := [wExample], nextBid := 3, nextWid := 6,
    cols := 78, rows := 130 }

/-- The canvas after pressing the bottom port of the Start block on the
initial canvas (a started, then cancelled, wire gesture). -/
def c2PressCanvas : Canvas := (pressPort initCanvas 0 "bottom").1

/-! ## Theorems -/

@[simp] theorem Pt.sub_x (a b : Pt) : (a - b).x = a.x - b.x := rfl

@[simp] theorem Pt.sub_y (a b : Pt) : (a - b).y = a.y - b.y := rfl

theorem sqrtQ_mul_self (q : ℚ) : sqrtQ (q * q) = |q| := by
  unfold sqrtQ
  rw [Rat.mul_self_num, Rat.mul_self_den]
  have h1 : (q.num * q.num).toNat = q.num.natAbs * q.num.natAbs := by
    rw [← Int.natAbs_mul_self, Int.toNat_natCast]
  rw [h1, Nat.sqrt_eq, Nat.sqrt_eq]
  have h2 : |q| = |(q.num : ℚ)| / |(q.den : ℚ)| := by
    rw [← abs_div, Rat.num_div_den]
  rw [h2, Int.cast_natAbs, abs_of_nonneg (by positivity : (0 : ℚ) ≤ (q.den : ℚ))]
  push_cast
  rfl

@[simp] theorem sqrtQ_sq (a : ℚ) : sqrtQ (a ^ 2) = |a| := by
  rw [pow_two, sqrtQ_mul_self]

@[simp] theorem zero_sq_q : (0 : ℚ) ^ 2 = 0 := by norm_num

theorem onSeg_start (a b : Pt) : onSeg a b a :=
  ⟨0, le_refl 0, zero_le_one, by ring, by ring⟩

theorem onSeg_stop (a b : Pt) : onSeg a b b :=
  ⟨1, zero_le_one, le_refl 1, by ring, by ring⟩

theorem seg_trim_back_h (x0 x1 y0 : ℚ) (h : 30 < |x1 - x0|) :
    onSeg ⟨x0, y0⟩ ⟨x1, y0⟩ ⟨x1 - (x1 - x0) / |x1 - x0| * 15, y0⟩ := by
  have h0 : (0 : ℚ) < |x1 - x0| := by linarith
  refine ⟨1 - 15 / |x1 - x0|, ?_, ?_, ?_, ?_⟩
  · have : 15 / |x1 - x0| < 1 := (div_lt_one h0).2 (by linarith)
    linarith
  · have : 0 ≤ 15 / |x1 - x0| := by positivity
    linarith
  · field_simp
    ring
  · ring

theorem seg_trim_fwd_h (x0 x1 y0 : ℚ) (h : 30 < |x1 - x0|) :
    onSeg ⟨x0, y0⟩ ⟨x1, y0⟩ ⟨x0 + (x1 - x0) / |x1 - x0| * 15, y0⟩ := by
  have h0 : (0 : ℚ) < |x1 - x0| := by linarith
  refine ⟨15 / |x1 - x0|, by positivity, ?_, ?_, ?_⟩
  · exact le_of_lt ((div_lt_one h0).2 (by linarith))
  · field_simp
    ring
  · ring

theorem seg_trim_back_v (x0 y0 y1 : ℚ) (h : 30 < |y1 - y0|) :
    onSeg ⟨x0, y0⟩ ⟨x0, y1⟩ ⟨x0, y1 - (y1 - y0) / |y1 - y0| * 15⟩ := by
  have h0 : (0 : ℚ) < |y1 - y0| := by linarith
  refine ⟨1 - 15 / |y1 - y0|, ?_, ?_, ?_, ?_⟩
  · have : 15 / |y1 - y0| < 1 := (div_lt_one h0).2 (by linarith)
    linarith
  · have : 0 ≤ 15 / |y1 - y0| := by positivity
    linarith
  · ring
  · field_simp
    ring

theorem seg_trim_fwd_v (x0 y0 y1 : ℚ) (h : 30 < |y1 - y0|) :
    onSeg ⟨x0, y0⟩ ⟨x0, y1⟩ ⟨x0, y0 + (y1 - y0) / |y1 - y0| * 15⟩ := by
  have h0 : (0 : ℚ) < |y1 - y0| := by linarith
  refine ⟨15 / |y1 - y0|, by positivity, ?_, ?_, ?_⟩
  · exact le_of_lt ((div_lt_one h0).2 (by linarith))
  · ring
  · field_simp
    ring

theorem addRounded_h_mem (s e : Pt) (mx : ℚ) (p : Pt)
    (hp : p ∈ pathPoints (addRoundedPath s ⟨mx, s.y⟩ ⟨mx, e.y⟩ e 15)) :
    onSeg s ⟨mx, s.y⟩ p ∨ onSeg ⟨mx, s.y⟩ ⟨mx, e.y⟩ p ∨ onSeg ⟨mx, e.y⟩ e p := by
  simp only [addRoundedPath, Pt.sub_x, Pt.sub_y, Pt.manhattanLength, sub_self, abs_zero,
    add_zero, zero_add, zero_sq_q, sqrtQ_sq, zero_div, zero_mul, mul_zero, sub_zero] at hp
  split_ifs at hp with h1 h2 h3 h4 h5 h6 <;>
    simp only [pathPoints, List.flatMap_cons, List.flatMap_nil, PathCmd.namedPoints,
      List.append_nil, List.mem_append, List.mem_cons, List.not_mem_nil, or_false,
      List.mem_singleton] at hp
  · rcases hp with rfl | (rfl | rfl) | rfl | (rfl | rfl) | rfl
    · exact Or.inl (seg_trim_back_h s.x mx s.y (by linarith))
    · exact Or.inr (Or.inl (onSeg_start _ _))
    · exact Or.inr (Or.inl (seg_trim_fwd_v mx s.y e.y (by linarith)))
    · exact Or.inr (Or.inl (seg_trim_back_v mx s.y e.y (by linarith)))
    · exact Or.inr (Or.inr (onSeg_start _ _))
    · exact Or.inr (Or.inr (seg_trim_fwd_h mx e.x e.y (by linarith)))
    · exact Or.inr (Or.inr (onSeg_stop _ _))
  · rcases hp with rfl | (rfl | rfl) | rfl | rfl
    · exact Or.inl (seg_trim_back_h s.x mx s.y (by linarith))
    · exact Or.inr (Or.inl (onSeg_start _ _))
    · exact Or.inr (Or.inl (seg_trim_fwd_v mx s.y e.y (by linarith)))
    · exact Or.inr (Or.inr (onSeg_start _ _))
    · exact Or.inr (Or.inr (onSeg_stop _ _))
  · rcases hp with rfl | (rfl | rfl) | rfl | rfl
    · exact Or.inl (seg_trim_back_h s.x mx s.y (by linarith))
    · exact Or.inr (Or.inl (onSeg_start _ _))
    · exact Or.inr (Or.inl (seg_trim_fwd_v mx s.y e.y (by linarith)))
    · exact Or.inr (Or.inr (onSeg_start _ _))
    · exact Or.inr (Or.inr (onSeg_stop _ _))
  · rcases hp with rfl | rfl | rfl | rfl
    · exact Or.inl (seg_trim_back_h s.x mx s.y (by linarith))
    · exact Or.inl (onSeg_stop _ _)
    · exact Or.inr (Or.inr (onSeg_start _ _))
    · exact Or.inr (Or.inr (onSeg_stop _ _))
  · rcases hp with rfl | rfl | rfl | rfl
    · exact Or.inl (seg_trim_back_h s.x mx s.y (by linarith))
    · exact Or.inl (onSeg_stop _ _)
    · exact Or.inr (Or.inr (onSeg_start _ _))
    · exact Or.inr (Or.inr (onSeg_stop _ _))
  · rcases hp with rfl | rfl | rfl
    · exact Or.inl (onSeg_stop _ _)
    · exact Or.inr (Or.inr (onSeg_start _ _))
    · exact Or.inr (Or.inr (onSeg_stop _ _))
  · rcases hp with rfl | rfl | rfl
    · exact Or.inl (onSeg_stop _ _)
    · exact Or.inr (Or.inr (onSeg_start _ _))
    · exact Or.inr (Or.inr (onSeg_stop _ _))

theorem addRounded_v_mem (s e : Pt) (my : ℚ) (p : Pt)
    (hp : p ∈ pathPoints (addRoundedPath s ⟨s.x, my⟩ ⟨e.x, my⟩ e 15)) :
    onSeg s ⟨s.x, my⟩ p ∨ onSeg ⟨s.x, my⟩ ⟨e.x, my⟩ p ∨ onSeg ⟨e.x, my⟩ e p := by
  simp only [addRoundedPath, Pt.sub_x, Pt.sub_y, Pt.manhattanLength, sub_self, abs_zero,
    add_zero, zero_add, zero_sq_q, sqrtQ_sq, zero_div, zero_mul, mul_zero, sub_zero] at hp
  split_ifs at hp with h1 h2 h3 h4 h5 h6 <;>
    simp only [pathPoints, List.flatMap_cons, List.flatMap_nil, PathCmd.namedPoints,
      List.append_nil, List.mem_append, List.mem_cons, List.not_mem_nil, or_false,
      List.mem_singleton] at hp
  · rcases hp with rfl | (rfl | rfl) | rfl | (rfl | rfl) | rfl
    · exact Or.inl (seg_trim_back_v s.x s.y my (by linarith))
    · exact Or.inr (Or.inl (onSeg_start _ _))
    · exact Or.inr (Or.inl (seg_trim_fwd_h s.x e.x my (by linarith)))
    · exact Or.inr (Or.inl (seg_trim_back_h s.x e.x my (by linarith)))
    · exact Or.inr (Or.inr (onSeg_start _ _))
    · exact Or.inr (Or.inr (seg_trim_fwd_v e.x my e.y (by linarith)))
    · exact Or.inr (Or.inr (onSeg_stop _ _))
  · rcases hp with rfl | (rfl | rfl) | rfl | rfl
    · exact Or.inl (seg_trim_back_v s.x s.y my (by linarith))
    · exact Or.inr (Or.inl (onSeg_start _ _))
    · exact Or.inr (Or.inl (seg_trim_fwd_h s.x e.x my (by linarith)))
    · exact Or.inr (Or.inr (onSeg_start _ _))
    · exact Or.inr (Or.inr (onSeg_stop _ _))
  · rcases hp with rfl | (rfl | rfl) | rfl | rfl
    · exact Or.inl (seg_trim_back_v s.x s.y my (by linarith))
    · exact Or.inr (Or.inl (onSeg_start _ _))
    · exact Or.inr (Or.inl (seg_trim_fwd_h s.x e.x my (by linarith)))
    · exact Or.inr (Or.inr (onSeg_start _ _))
    · exact Or.inr (Or.inr (onSeg_stop _ _))
  · rcases hp with rfl | rfl | rfl | rfl
    · exact Or.inl (seg_trim_back_v s.x s.y my (by linarith))
    · exact Or.inl (onSeg_stop _ _)
    · exact Or.inr (Or.inr (onSeg_start _ _))
    · exact Or.inr (Or.inr (onSeg_stop _ _))
  · rcases hp with rfl | rfl | rfl | rfl
    · exact Or.inl (seg_trim_back_v s.x s.y my (by linarith))
    · exact Or.inl (onSeg_stop _ _)
    · exact Or.inr (Or.inr (onSeg_start _ _))
    · exact Or.inr (Or.inr (onSeg_stop _ _))
  · rcases hp with rfl | rfl | rfl
    · exact Or.inl (onSeg_stop _ _)
    · exact Or.inr (Or.inr (onSeg_start _ _))
    · exact Or.inr (Or.inr (onSeg_stop _ _))
  · rcases hp with rfl | rfl | rfl
    · exact Or.inl (onSeg_stop _ _)
    · exact Or.inr (Or.inr (onSeg_start _ _))
    · exact Or.inr (Or.inr (onSeg_stop _ _))

theorem addRounded_length_ge (p1 p2 p3 p4 : Pt) (r : ℚ) :
    3 ≤ (addRoundedPath p1 p2 p3 p4 r).length := by
  simp only [addRoundedPath]
  split_ifs <;> simp

theorem addRounded_getLast (p1 p2 p3 p4 : Pt) (r : ℚ) :
    (addRoundedPath p1 p2 p3 p4 r).getLast? = some (.lineTo p4) := by
  simp only [addRoundedPath]
  split_ifs <;> rfl

theorem getLast?_cons_of_some {α : Type} (c x : α) :
    ∀ l : List α, l.getLast? = some x → (c :: l).getLast? = some x
  | [], h => by simp at h
  | _ :: _, h => by rw [List.getLast?_cons_cons]; exact h

/-- Claim C10: for every pair of endpoints, the routed path begins exactly
at the start point (its first command is moveTo start) and its final command
ends exactly at the end point, in every branch: the straight-line cases and
every rounded or corner-degraded three-leg case. -/
theorem c10_path_endpoints (s e : Pt) :
    (updatePath s e).head? = some (.moveTo s) ∧
    ((updatePath s e).getLast?).map PathCmd.target = some e := by
  simp only [updatePath]
  split_ifs
  · exact ⟨rfl, rfl⟩
  · exact ⟨rfl, rfl⟩
  · exact ⟨rfl, rfl⟩
  · refine ⟨rfl, ?_⟩
    rw [getLast?_cons_of_some _ _ _ (addRounded_getLast _ _ _ _ _)]
    rfl
  · refine ⟨rfl, ?_⟩
    rw [getLast?_cons_of_some _ _ _ (addRounded_getLast _ _ _ _ _)]
    rfl

/-- Claim C8: the routing function returns the straight two-command line
exactly when the displacement in either axis is below the 10-unit tolerance;
otherwise it routes horizontal-first along the three-leg skeleton with the
vertical leg at start.x + 0.6 * dx when the horizontal displacement exceeds
the vertical one, and vertical-first along the skeleton with the horizontal
leg at start.y + 0.6 * dy otherwise: every point of the produced path lies
on the corresponding three legs. -/
theorem c8_routing_geometry (s e : Pt) :
    ((|e.x - s.x| < 10 ∨ |e.y - s.y| < 10) ↔ updatePath s e = [.moveTo s, .lineTo e]) ∧
    (¬ (|e.x - s.x| < 10 ∨ |e.y - s.y| < 10) →
      ((|e.x - s.x| > |e.y - s.y| →
          ∀ p ∈ pathPoints (updatePath s e), onThreeLegsH s e p) ∧
       (¬ |e.x - s.x| > |e.y - s.y| →
          ∀ p ∈ pathPoints (updatePath s e), onThreeLegsV s e p))) := by
  constructor
  · constructor
    · intro h
      simp only [updatePath]
      split_ifs with h1 h2 h3 h4 <;> try rfl
      · rcases h with h | h
        · exact absurd h h2
        · exact absurd h h3
      · rcases h with h | h
        · exact absurd h h2
        · exact absurd h h3
    · intro h
      by_contra hc
      push_neg at hc
      simp only [updatePath] at h
      rw [if_neg (by rintro ⟨hx, _⟩; exact absurd hx (not_lt.2 hc.1)),
        if_neg (not_lt.2 hc.1), if_neg (not_lt.2 hc.2)] at h
      have hl := congrArg List.length h
      by_cases hxy : |e.x - s.x| > |e.y - s.y|
      · rw [if_pos hxy] at hl
        have h3 := addRounded_length_ge s ⟨s.x + (e.x - s.x) * (6 / 10), s.y⟩
          ⟨s.x + (e.x - s.x) * (6 / 10), e.y⟩ e 15
        simp only [List.length_cons, List.length_nil] at hl
        omega
      · rw [if_neg hxy] at hl
        have h3 := addRounded_length_ge s ⟨s.x, s.y + (e.y - s.y) * (6 / 10)⟩
          ⟨e.x, s.y + (e.y - s.y) * (6 / 10)⟩ e 15
        simp only [List.length_cons, List.length_nil] at hl
        omega
  · intro hno
    push_neg at hno
    constructor
    · intro hgt p hp
      simp only [updatePath] at hp
      rw [if_neg (by rintro ⟨hx, _⟩; exact absurd hx (not_lt.2 hno.1)),
        if_neg (not_lt.2 hno.1), if_neg (not_lt.2 hno.2), if_pos hgt] at hp
      simp only [pathPoints, List.flatMap_cons, PathCmd.namedPoints, List.mem_append,
        List.mem_singleton] at hp
      rcases hp with rfl | hp
      · exact Or.inl (onSeg_start _ _)
      · exact addRounded_h_mem s e _ p hp
    · intro hle p hp
      simp only [updatePath] at hp
      rw [if_neg (by rintro ⟨hx, _⟩; exact absurd hx (not_lt.2 hno.1)),
        if_neg (not_lt.2 hno.1), if_neg (not_lt.2 hno.2), if_neg hle] at hp
      simp only [pathPoints, List.flatMap_cons, PathCmd.namedPoints, List.mem_append,
        List.mem_singleton] at hp
      rcases hp with rfl | hp
      · exact Or.inl (onSeg_start _ _)
      · exact addRounded_v_mem s e _ p hp

/-- Claim C1 (refuting evaluation): the round trip
load_project(get_project_data(.)) on the initial canvas, which holds exactly
the one Start block and no wires, succeeds but yields a canvas with two
blocks: load_project first calls clear_canvas, which re-adds a fresh Start
block, and then also reconstructs the exported Start block, so the block
count is not preserved. -/
theorem c1_roundtrip_adds_extra_start_block :
    initCanvas.blocks.length = 1 ∧
    (loadProject initCanvas (getProjectData initCanvas)).2 = none ∧
    (loadProject initCanvas (getProjectData initCanvas)).1.blocks.length = 2 := by
  refine ⟨rfl, ?_, ?_⟩ <;> decide

/-- Claim C3 (refuting evaluation): the delete-key handler does skip the
Start block and clear_canvas does leave exactly one Start block, but
after importing the document exported from the initial canvas the scene
holds two Start blocks, violating the claimed at-every-time uniqueness. -/
theorem c3_start_block_not_unique_after_import :
    deleteBlock initCanvas 0 = initCanvas ∧
    ((clearCanvas initCanvas).blocks.filter (fun b => b.isStart)).length = 1 ∧
    ((loadProject initCanvas (getProjectData initCanvas)).1.blocks.filter
      (fun b => b.isStart)).length = 2 := by
  refine ⟨?_, ?_, ?_⟩ <;> decide

/-- Claim C9 (refuting evaluation): the overlap-resolution loop of
mouseMoveEvent does not terminate on every configuration.  With the scene
3950 units wide, an obstructing block of size 150 x 40 at (3700, 50) and the
dragged block of the same size clamped to x = 3800 at the same ordinate, one
iteration moves the block to x = 3960 and the clamp puts it straight back to
x = 3800, still overlapping: the loop never exits, whatever the fuel. -/
theorem c9_overlap_loop_livelock (fuel : ℕ) :
    (overlapLoop 3700 50 150 40 50 3950 150 40 50 fuel 3800).2 = false := by
  induction fuel with
  | zero => rfl
  | succ n ih =>
    have hstep : clampX 50 3950 150 (3800 + 150 + 10) = 3800 := by
      norm_num [clampX]
    have hint : rectIntersects 3700 50 150 40 3800 50 150 40 = true := by
      simp only [rectIntersects, Bool.and_eq_true, decide_eq_true_eq]
      norm_num
    simp only [overlapLoop, hint, if_true, hstep]
    exact ih

/-- Claim C7: assign_output_port succeeds exactly when the port name is one
of the four dict keys and does not currently hold the input role; on success
the block changes only by its single output slot now naming that port
(last-writer-wins over any prior assignment), and on refusal the block is
returned unchanged (the source returns False and raises nothing: the
embedded operation is total). -/
theorem c7_assign_output_spec (b : Block) (p : String) :
    ((assignOutputPort b p).2 = true ↔ p ∈ portNames ∧ p ∉ b.input_ports) ∧
    ((assignOutputPort b p).2 = true →
      (assignOutputPort b p).1 = { b with output_port := some p }) ∧
    ((assignOutputPort b p).2 = false → (assignOutputPort b p).1 = b) := by
  unfold assignOutputPort
  split_ifs with h
  · exact ⟨⟨fun _ => h, fun _ => rfl⟩, fun _ => rfl, fun hf => by simp at hf⟩
  · exact ⟨⟨fun ht => by simp at ht, fun hp => absurd hp h⟩,
      fun ht => by simp at ht, fun _ => rfl⟩

/-- Witness for C7: assigning the already-input port left of a concrete
block as its output is refused with no state change, and assigning its free
top port succeeds. -/
theorem c7_assign_output_spec_witness :
    (assignOutputPort bExample "left").2 = false ∧
    (assignOutputPort bExample "left").1 = bExample ∧
    (assignOutputPort bExample "top").2 = true ∧
    (assignOutputPort bExample "top").1 = { bExample with output_port := some "top" } := by
  have hl := c7_assign_output_spec bExample "left"
  have ht := c7_assign_output_spec bExample "top"
  have hlf : (assignOutputPort bExample "left").2 = false := by
    cases hv : (assignOutputPort bExample "left").2
    · rfl
    · exact absurd ((hl.1.1 hv).2) (by decide)
  have ht2 : (assignOutputPort bExample "top").2 = true :=
    ht.1.mpr ⟨by decide, by decide⟩
  exact ⟨hlf, hl.2.2 hlf, ht2, ht.2.1 ht2⟩

theorem jGet_isObj {d : JVal} {k : String} {v : JVal} (h : jGet d k = some v) :
    d.isObj = true := by
  cases d <;> simp [jGet, JVal.isObj] at h ⊢

theorem match_arr_exists : ∀ {o : Option JVal},
    (match o with | some (.arr _) => true | _ => false) = true →
    ∃ xs, o = some (.arr xs)
  | some (.arr _), _ => ⟨_, rfl⟩
  | none, h => nomatch h
  | some .null, h => nomatch h
  | some (.bool _), h => nomatch h
  | some (.num _), h => nomatch h
  | some (.str _), h => nomatch h
  | some (.obj _), h => nomatch h

theorem match_obj_exists : ∀ {o : Option JVal},
    (match o with | some (.obj _) => true | _ => false) = true →
    ∃ kvs, o = some (.obj kvs)
  | some (.obj _), _ => ⟨_, rfl⟩
  | none, h => nomatch h
  | some .null, h => nomatch h
  | some (.bool _), h => nomatch h
  | some (.num _), h => nomatch h
  | some (.str _), h => nomatch h
  | some (.arr _), h => nomatch h

theorem validate_iff_spec (d : JVal) :
    validateProjectData d = true ↔ specRequiredCollections d := by
  constructor
  · intro h
    unfold validateProjectData at h
    simp only [Bool.and_eq_true] at h
    exact ⟨match_arr_exists h.1.1.2, match_arr_exists h.1.2, match_obj_exists h.2⟩
  · rintro ⟨⟨bs, hb⟩, ⟨ws, hw⟩, ⟨kvs, hc⟩⟩
    unfold validateProjectData
    rw [hb, hw, hc, jGet_isObj hb]
    rfl

theorem loadProject_ok_of_validated (c : Canvas) (d : JVal)
    (h : validateProjectData d = true) : (loadProject c d).2 = none := by
  obtain ⟨⟨bs, hb⟩, ⟨ws, hw⟩, _⟩ := (validate_iff_spec d).1 h
  unfold loadProject
  rw [if_pos ⟨jGet_isObj hb, by rw [hb]; rfl⟩, hb, hw]
  simp [jIterate]

/-- Claim C5: importing an already-parsed document through the application
path (validate_project_data before FlowchartCanvas.load_project, as wired in
Main.open_project) fails exactly when the document is missing one of the
three required top-level collections or one of them has the wrong shape:
every such malformed document is rejected by the validator, and every
document with the three well-shaped collections loads without a
document-level error (per-entity problems are skipped, not raised). -/
theorem c5_import_validation_iff (c : Canvas) (d : JVal) :
    (openProjectDocument c d).2 = true ↔ ¬ specRequiredCollections d := by
  unfold openProjectDocument
  cases hv : validateProjectData d
  · have hns : ¬ specRequiredCollections d := fun hs => by
      rw [(validate_iff_spec d).2 hs] at hv
      cases hv
    simp [hns]
  · have hok := loadProject_ok_of_validated c d hv
    have hs := (validate_iff_spec d).1 hv
    rcases hlp : loadProject c d with ⟨c1, e⟩
    have he : e = none := by
      rw [hlp] at hok
      exact hok
    subst he
    simp [hlp, hs]

/-- Claim C6: when import fails on a structural document error, the
whole import fails and the canvas is untouched.  In the application path
the structural validation runs before load_project is ever called, and a
document that passes validation never triggers the clear-then-raise path
inside load_project, so a structurally bad document leaves the block and
wire collections exactly as they were. -/
theorem c6_failed_import_leaves_state (c : Canvas) (d : JVal)
    (h : ¬ specRequiredCollections d) :
    (openProjectDocument c d).1 = c ∧ (openProjectDocument c d).2 = true := by
  have hv : validateProjectData d = false := by
    cases hvv : validateProjectData d
    · rfl
    · exact absurd ((validate_iff_spec d).1 hvv) h
  unfold openProjectDocument
  rw [hv]
  exact ⟨rfl, rfl⟩

/-- Witness for C6: a list-shaped (non-dict) document is rejected and the
initial canvas is returned unchanged. -/
theorem c6_failed_import_leaves_state_witness :
    ¬ specRequiredCollections (.arr []) ∧
    (openProjectDocument initCanvas (.arr [])).1 = initCanvas := by
  have hbad : ¬ specRequiredCollections (.arr []) := by
    rintro ⟨⟨xs, hxs⟩, -, -⟩
    simp [jGet] at hxs
  exact ⟨hbad, (c6_failed_import_leaves_state initCanvas (.arr []) hbad).1⟩

/-- Claim C4 (counterexample): on the reachable canvas with two wires (ids 0
and 1) both ending on the left input port of block 3, deleting wire 0
removes the input role of the port even though wire 1 still uses it - the
port is returned to the available state while another wire ends there, so
the port does not return to available exactly when no other wire uses
it. -/
theorem c4_input_role_cleared_counterexample :
    (findBlock c4Canvas 3).map Block.input_ports = some ["left"] ∧
    (findBlock c4Canvas 3).map Block.in_wires = some [0, 1] ∧
    (findWire c4Canvas 1).map Wire.to_port = some "left" ∧
    (findBlock c4After 3).map Block.input_ports = some [] ∧
    (findBlock c4After 3).map Block.in_wires = some [1] ∧
    (findWire c4After 1).map Wire.to_port = some "left" := by
  refine ⟨?_, ?_, ?_, ?_, ?_, ?_⟩ <;> decide

theorem assignInputPort_fst (b : Block) (p : String) :
    (assignInputPort b p).1 =
      if p ∈ portNames ∧ b.output_port ≠ some p then
        { b with input_ports := pySetAdd b.input_ports p }
      else b := by
  unfold assignInputPort
  split_ifs <;> rfl

theorem assignOutputPort_fst (b : Block) (p : String) :
    (assignOutputPort b p).1 =
      if p ∈ portNames ∧ p ∉ b.input_ports then
        { b with output_port := some p }
      else b := by
  unfold assignOutputPort
  split_ifs <;> rfl

theorem portRoleInv_assignInput (b : Block) (p : String) (h : portRoleInv b) :
    portRoleInv (assignInputPort b p).1 := by
  rw [assignInputPort_fst]
  split_ifs with hc
  · intro s hs
    simp only [pySetAdd] at hs
    split_ifs at hs with hmem
    · exact h s hs
    · rcases List.mem_append.1 hs with hs2 | hs2
      · exact h s hs2
      · simp only [List.mem_singleton] at hs2
        subst hs2
        exact hc.2
  · exact h

theorem portRoleInv_assignOutput (b : Block) (p : String) (h : portRoleInv b) :
    portRoleInv (assignOutputPort b p).1 := by
  rw [assignOutputPort_fst]
  split_ifs with hc
  · intro s hs heq
    simp only [Option.some.injEq] at heq
    subst heq
    exact hc.2 hs
  · exact h

theorem portRoleInv_removeInput (b : Block) (p : String) (h : portRoleInv b) :
    portRoleInv (removeInputPort b p) := by
  unfold removeInputPort
  split_ifs
  · intro s hs
    exact h s (List.mem_of_mem_erase hs)
  · exact h

theorem portRoleInv_resetPorts (b : Block) (h : portRoleInv b) :
    portRoleInv (resetPorts b) := by
  simp only [resetPorts]
  split_ifs <;> intro s hs <;>
    first
      | exact h s hs
      | exact h s (List.mem_of_mem_erase hs)
      | simp_all

theorem portRoleInv_disconnectStep (w : Wire) (b : Block) (h : portRoleInv b) :
    portRoleInv (disconnectBlockStep w b) := by
  simp only [disconnectBlockStep, removeInputPort, resetPorts]
  split_ifs <;> intro s hs <;>
    first
      | exact h s hs
      | exact h s (List.mem_of_mem_erase hs)
      | simp_all

theorem canvasPortInv_blocks {c c2 : Canvas} (h : canvasPortInv c)
    (hb : c2.blocks = c.blocks) : canvasPortInv c2 := by
  intro b hbm
  exact h b (hb ▸ hbm)

theorem canvasPortInv_updBlock (c : Canvas) (bid : ℕ) (f : Block → Block)
    (hc : canvasPortInv c) (hf : ∀ b, portRoleInv b → portRoleInv (f b)) :
    canvasPortInv (updBlock c bid f) := by
  intro b hb
  simp only [updBlock, List.mem_map] at hb
  obtain ⟨b0, hb0, rfl⟩ := hb
  split_ifs
  · exact hf b0 (hc b0 hb0)
  · exact hc b0 hb0

theorem findBlock_mem {c : Canvas} {bid : ℕ} {b : Block}
    (h : findBlock c bid = some b) : b ∈ c.blocks :=
  List.mem_of_find?_eq_some h

theorem canvasPortInv_disconnectWire (c : Canvas) (w : Wire)
    (hc : canvasPortInv c) : canvasPortInv (disconnectWire c w) := by
  intro b hb
  simp only [disconnectWire, List.mem_map] at hb
  obtain ⟨b0, hb0, rfl⟩ := hb
  exact portRoleInv_disconnectStep w b0 (hc b0 hb0)

theorem canvasPortInv_pressPort (c : Canvas) (bid : ℕ) (p : String)
    (hc : canvasPortInv c) : canvasPortInv (pressPort c bid p).1 := by
  unfold pressPort
  split
  · exact hc
  · rename_i b hfb
    dsimp only
    split_ifs <;>
      first
        | exact hc
        | (split <;>
            first
              | exact hc
              | (split <;> first | exact hc | exact canvasPortInv_disconnectWire _ _ hc)
              | exact canvasPortInv_disconnectWire _ _ hc)
        | exact canvasPortInv_updBlock c bid _ hc
            (fun _ _ => portRoleInv_assignOutput b p (hc b (findBlock_mem hfb)))

theorem canvasPortInv_releaseOnPort (c : Canvas) (src : ℕ × String)
    (dstBid : ℕ) (p : String) (hc : canvasPortInv c) :
    canvasPortInv (releaseOnPort c src dstBid p) := by
  unfold releaseOnPort
  by_cases h1 : dstBid = src.1
  · rw [if_pos h1]
    exact hc
  · rw [if_neg h1]
    split
    · exact hc
    · rename_i d hfd
      dsimp only
      by_cases hp : p ∈ portNames
      · rw [if_pos hp]
        split_ifs with h2
        · refine canvasPortInv_blocks ?_ rfl
          refine canvasPortInv_updBlock _ _ _ ?_ (fun b hb => hb)
          refine canvasPortInv_updBlock _ _ _ ?_ (fun b hb => hb)
          exact canvasPortInv_updBlock _ _ _ hc
            (fun _ _ => portRoleInv_assignInput d p (hc d (findBlock_mem hfd)))
        · exact hc
      · rw [if_neg hp]
        exact hc

theorem portRoleInv_mkDraggable (bid : ℕ) (w h : ℚ) (text : String) :
    portRoleInv (mkDraggableBlock bid w h text) := by
  intro s hs
  simp [mkDraggableBlock] at hs

theorem portRoleInv_mkStart (bid : ℕ) : portRoleInv (mkStartBlock bid) := by
  intro s hs
  simp [mkStartBlock, mkDraggableBlock] at hs

theorem portRoleInv_setBlockPos (b : Block) (px py : ℚ) (h : portRoleInv b) :
    portRoleInv (setBlockPos b px py) := h

theorem canvasPortInv_dropBlock (c : Canvas) (text : String) (px py : ℚ)
    (hc : canvasPortInv c) : canvasPortInv (dropBlock c text px py) := by
  intro b hb
  simp only [dropBlock, List.mem_append, List.mem_singleton] at hb
  rcases hb with hb | rfl
  · exact hc b hb
  · exact portRoleInv_setBlockPos _ _ _ (portRoleInv_mkDraggable _ _ _ _)

theorem canvasPortInv_deleteBlock (c : Canvas) (bid : ℕ)
    (hc : canvasPortInv c) : canvasPortInv (deleteBlock c bid) := by
  unfold deleteBlock
  split
  · split_ifs
    · exact hc
    · intro b hb
      exact hc b (List.mem_of_mem_filter hb)
  · exact hc

theorem canvasPortInv_clearCanvas (c : Canvas) :
    canvasPortInv (clearCanvas c) := by
  intro b hb
  simp only [clearCanvas, List.mem_singleton] at hb
  subst hb
  exact portRoleInv_setBlockPos _ _ _ (portRoleInv_mkStart _)

theorem canvasPortInv_init : canvasPortInv initCanvas := by
  intro b hb
  simp only [initCanvas, List.mem_singleton] at hb
  subst hb
  exact portRoleInv_setBlockPos _ _ _ (portRoleInv_mkStart _)

theorem canvasPortInv_foldl {α : Type} (f : Canvas → α → Canvas)
    (hf : ∀ c a, canvasPortInv c → canvasPortInv (f c a)) :
    ∀ (l : List α) (c : Canvas), canvasPortInv c → canvasPortInv (l.foldl f c) := by
  intro l
  induction l with
  | nil => exact fun c hc => hc
  | cons a rest ih =>
    intro c hc
    rw [List.foldl_cons]
    exact ih (f c a) (hf c a hc)

theorem canvasPortInv_foldl_pair {α β : Type} (f : Canvas × β → α → Canvas × β)
    (hf : ∀ acc a, canvasPortInv acc.1 → canvasPortInv (f acc a).1) :
    ∀ (l : List α) (acc : Canvas × β), canvasPortInv acc.1 →
      canvasPortInv (l.foldl f acc).1 := by
  intro l
  induction l with
  | nil => exact fun acc hc => hc
  | cons a rest ih =>
    intro acc hc
    rw [List.foldl_cons]
    exact ih (f acc a) (hf acc a hc)

theorem canvasPortInv_pasteBlocks (c : Canvas) (buf : List (String × ℚ × ℚ))
    (hc : canvasPortInv c) : canvasPortInv (pasteBlocks c buf).1 := by
  unfold pasteBlocks
  refine canvasPortInv_foldl_pair _ ?_ buf (c, []) hc
  intro acc e hacc
  intro b hb
  simp only [List.mem_append, List.mem_singleton] at hb
  rcases hb with hb | rfl
  · exact hacc b hb
  · exact portRoleInv_setBlockPos _ _ _ (portRoleInv_mkDraggable _ _ _ _)

theorem canvasPortInv_pasteWireStep (c : Canvas) (newBids : List ℕ)
    (e : ℕ × ℕ × String × String) (hc : canvasPortInv c) :
    canvasPortInv (pasteWireStep c newBids e).1 := by
  unfold pasteWireStep
  split_ifs with h1
  · dsimp only
    split_ifs with h2
    · split
      · refine canvasPortInv_blocks ?_ rfl
        refine canvasPortInv_updBlock _ _ _ ?_ (fun b hb => hb)
        refine canvasPortInv_updBlock _ _ _ ?_ (fun b hb => hb)
        refine canvasPortInv_updBlock _ _ _ ?_ (fun b => portRoleInv_assignInput b _)
        exact canvasPortInv_updBlock _ _ _ hc (fun b => portRoleInv_assignOutput b _)
      · refine canvasPortInv_updBlock _ _ _ ?_ (fun b => portRoleInv_assignInput b _)
        exact canvasPortInv_updBlock _ _ _ hc (fun b => portRoleInv_assignOutput b _)
    · refine canvasPortInv_updBlock _ _ _ ?_ (fun b => portRoleInv_assignInput b _)
      exact canvasPortInv_updBlock _ _ _ hc (fun b => portRoleInv_assignOutput b _)
  · exact hc

theorem canvasPortInv_pasteWires (newBids : List ℕ)
    (wbuf : List (ℕ × ℕ × String × String)) :
    ∀ (c : Canvas), canvasPortInv c → canvasPortInv (pasteWires c newBids wbuf) := by
  induction wbuf with
  | nil => exact fun c hc => hc
  | cons e rest ih =>
    intro c hc
    unfold pasteWires
    rcases hps : pasteWireStep c newBids e with ⟨c1, flag⟩
    have h1 : canvasPortInv c1 := by
      have := canvasPortInv_pasteWireStep c newBids e hc
      rw [hps] at this
      exact this
    cases flag
    · exact h1
    · exact ih c1 h1

theorem canvasPortInv_pasteOp (c : Canvas) (buf : List (String × ℚ × ℚ))
    (wbuf : List (ℕ × ℕ × String × String)) (hc : canvasPortInv c) :
    canvasPortInv (pasteOp c buf wbuf) := by
  unfold pasteOp
  exact canvasPortInv_pasteWires _ wbuf _ (canvasPortInv_pasteBlocks c buf hc)

theorem canvasPortInv_loadWireStep (c : Canvas) (m : List (JVal × ℕ)) (wd : JVal)
    (hc : canvasPortInv c) : canvasPortInv (loadWireStep c m wd) := by
  unfold loadWireStep
  split_ifs with h1 <;> try exact hc
  dsimp only
  split_ifs with h2 <;> try exact hc
  cases hf : mapLookup m ((jGet wd "from_block").getD JVal.null) with
  | none => exact hc
  | some fromBid =>
  cases ht : mapLookup m ((jGet wd "to_block").getD JVal.null) with
  | none => exact hc
  | some toBid =>
  cases hpg : parseWireGeom wd with
  | none => exact hc
  | some g =>
  dsimp only
  refine canvasPortInv_blocks ?_ rfl
  refine canvasPortInv_updBlock _ _ _ ?_ (fun b => portRoleInv_assignInput b _)
  refine canvasPortInv_updBlock _ _ _ ?_ (fun b => portRoleInv_assignOutput b _)
  refine canvasPortInv_updBlock _ _ _ ?_ (fun b hb => hb)
  exact canvasPortInv_updBlock _ _ _ hc (fun b hb => hb)

theorem loadBlockRecord_fields {bd : JVal} {bid : ℕ} {b2 : Block} {vip vout : JVal}
    {l : List String}
    (h : loadBlockRecord bd bid = some b2)
    (hip : jGet bd "input_ports" = some vip) (hl : jStrSet vip = some l)
    (hop : jGet bd "output_port" = some vout) :
    b2.input_ports = l ∧ b2.output_port = jOutParse vout := by
  unfold loadBlockRecord at h
  rw [hip, hop] at h
  dsimp only at h
  rw [hl] at h
  repeat' split at h
  all_goals try simp_all
  all_goals
    subst h
    rename_i hprev
    refine ⟨?_, rfl⟩
    rw [← hprev]

theorem jStrSet_map_str (l : List String) :
    jStrSet (.arr (l.map JVal.str)) = some l.dedup := by
  have h1 : (l.map JVal.str).all JVal.hashable = true := by
    simp [List.all_map, Function.comp, JVal.hashable]
  simp only [jStrSet, h1, if_true]
  rw [List.filterMap_map,
    show ((fun v => match v with | JVal.str s => some s | _ => none) ∘ JVal.str) = some
      from rfl,
    List.filterMap_some]

theorem portRoleInv_of_export {b : Block} (hb : portRoleInv b) {bid : ℕ} {b2 : Block}
    (h : loadBlockRecord (blockRecord b) bid = some b2) : portRoleInv b2 := by
  have hip : jGet (blockRecord b) "input_ports" =
      some (.arr (b.input_ports.map JVal.str)) := rfl
  have hop : jGet (blockRecord b) "output_port" =
      some (match b.output_port with | none => .null | some s => .str s) := rfl
  obtain ⟨hi, ho⟩ := loadBlockRecord_fields h hip (jStrSet_map_str b.input_ports) hop
  intro s hs
  rw [hi, List.mem_dedup] at hs
  rw [ho]
  cases hb2 : b.output_port with
  | none => simp [jOutParse]
  | some t =>
    simp only [hb2, jOutParse]
    intro heq
    simp only [Option.some.injEq] at heq
    subst heq
    exact hb _ hs hb2

theorem canvasPortInv_loadBlocks (bds : List JVal)
    (hgood : ∀ bd ∈ bds, ∀ bid b2, loadBlockRecord bd bid = some b2 → portRoleInv b2) :
    ∀ (c : Canvas) (m : List (JVal × ℕ)), canvasPortInv c →
      canvasPortInv (loadBlocks c m bds).1 := by
  induction bds with
  | nil => exact fun c m hc => hc
  | cons bd rest ih =>
    intro c m hc
    have hgr : ∀ bd2 ∈ rest, ∀ bid b2, loadBlockRecord bd2 bid = some b2 → portRoleInv b2 :=
      fun bd2 hm => hgood bd2 (List.mem_cons_of_mem bd hm)
    unfold loadBlocks
    cases hlr : loadBlockRecord bd c.nextBid with
    | none => exact ih hgr c m hc
    | some b =>
      have hnew : canvasPortInv
          { c with blocks := c.blocks ++ [b], nextBid := c.nextBid + 1 } := by
        intro b3 hb3
        simp only [List.mem_append, List.mem_singleton] at hb3
        rcases hb3 with hb3 | rfl
        · exact hc b3 hb3
        · exact hgood bd (List.mem_cons_self bd rest) c.nextBid b3 hlr
      dsimp only
      split_ifs
      · exact ih hgr _ _ hnew
      · exact ih hgr _ _ hnew

theorem canvasPortInv_loadProject_export (c src : Canvas)
    (hsrc : canvasPortInv src) :
    canvasPortInv (loadProject c (getProjectData src)).1 := by
  have hb : jGet (getProjectData src) "blocks" =
      some (.arr (src.blocks.map blockRecord)) := rfl
  have hw : jGet (getProjectData src) "wires" =
      some (.arr (src.wires.map wireRecord)) := rfl
  unfold loadProject
  rw [if_pos ⟨rfl, by rw [hb]; rfl⟩, hb, hw]
  simp only [Option.getD_some, jIterate]
  have hblocks : canvasPortInv (loadBlocks (clearCanvas c) [] (src.blocks.map blockRecord)).1 := by
    refine canvasPortInv_loadBlocks _ ?_ _ _ (canvasPortInv_clearCanvas c)
    intro bd hbd bid b2 hlr
    simp only [List.mem_map] at hbd
    obtain ⟨b0, hb0, rfl⟩ := hbd
    exact portRoleInv_of_export (hsrc b0 hb0) hlr
  exact canvasPortInv_foldl _ (fun c0 wd => canvasPortInv_loadWireStep c0 _ wd) _ _ hblocks

/-- Claim C2: in every canvas state reachable by the editing operations
(port assignment via the wire gesture, wire creation, wire deletion, paste,
canvas clear, block drop and deletion, and importing a document exported
from a reachable state), every block has at most one output-role port (the
single output slot determines at most one port name) and no port
simultaneously holds the input and the output role. -/
theorem c2_port_role_invariant (c : Canvas) (h : Reachable c) :
    ∀ b ∈ c.blocks,
      (∀ p q, b.output_port = some p → b.output_port = some q → p = q) ∧
      portRoleInv b := by
  have hinv : canvasPortInv c := by
    induction h with
    | init => exact canvasPortInv_init
    | drop c text px py hr ih => exact canvasPortInv_dropBlock c text px py ih
    | press c bid p hr ih => exact canvasPortInv_pressPort c bid p ih
    | wire c bid p src dstBid q hr hsome ih =>
      exact canvasPortInv_releaseOnPort _ src dstBid q (canvasPortInv_pressPort c bid p ih)
    | deleteWire c w hr hw ih => exact canvasPortInv_disconnectWire c w ih
    | deleteBlk c bid hr ih => exact canvasPortInv_deleteBlock c bid ih
    | paste c buf wbuf hr ih => exact canvasPortInv_pasteOp c buf wbuf ih
    | clear c hr ih => exact canvasPortInv_clearCanvas c
    | importExport c src hr hsrc ihc ihsrc =>
      exact canvasPortInv_loadProject_export c src ihsrc
  intro b hb
  refine ⟨fun p q hp hq => ?_, hinv b hb⟩
  rw [hp] at hq
  injection hq with hpq

/-- Witness for C2: after pressing the bottom port of the Start block on the
initial canvas (which assigns the output role and starts a gesture), the
Start block carries output port bottom and the invariant holds for it. -/
theorem c2_port_role_invariant_witness :
    portRoleInv { setBlockPos (mkStartBlock 0) 50 50 with output_port := some "bottom" } :=
  (c2_port_role_invariant c2PressCanvas
    (Reachable.press initCanvas 0 "bottom" Reachable.init)
    { setBlockPos (mkStartBlock 0) 50 50 with output_port := some "bottom" }
    (by decide)).2

theorem step_in_wires (w : Wire) (b : Block) :
    (disconnectBlockStep w b).in_wires =
      if w.wid ∈ b.in_wires then b.in_wires.erase w.wid else b.in_wires := by
  simp only [disconnectBlockStep, removeInputPort, resetPorts]
  split_ifs <;> rfl

theorem step_out_wires (w : Wire) (b : Block) :
    (disconnectBlockStep w b).out_wires =
      if w.wid ∈ b.out_wires then b.out_wires.erase w.wid else b.out_wires := by
  simp only [disconnectBlockStep, removeInputPort, resetPorts]
  split_ifs <;> rfl

theorem step_input_cleared (w : Wire) (b : Block) (hports : b.input_ports.Nodup)
    (him : w.wid ∈ b.in_wires) :
    w.to_port ∉ (disconnectBlockStep w b).input_ports := by
  simp only [disconnectBlockStep, removeInputPort, resetPorts]
  split_ifs <;> dsimp only <;>
    first
      | simp
      | exact hports.not_mem_erase
      | simp_all

theorem step_output_reset (w : Wire) (b : Block) (hom : w.wid ∈ b.out_wires)
    (hnim : w.wid ∉ b.in_wires) :
    (disconnectBlockStep w b).output_port =
      if b.in_wires = [] ∧ b.out_wires.erase w.wid = [] then none
      else b.output_port := by
  simp only [disconnectBlockStep, removeInputPort, resetPorts, if_neg hnim, if_pos hom]
  split_ifs <;> dsimp only <;> simp_all

/-- Claim C4 (amended): deleting a wire removes the wire item from the
scene and the wire from every block's incident lists; the destination
port's input role is cleared whenever the deleted wire's destination port
held it, even if another wire still ends on that port (amending the claimed
"exactly when no other wire uses it"); and for a source block that does not
also receive the wire, the output role is cleared exactly when the deletion
leaves the block with no incoming wire and no remaining outgoing wire (full
reset), otherwise it is preserved. -/
theorem c4_wire_deletion_amended (c : Canvas) (w : Wire) (b : Block)
    (hb : b ∈ c.blocks) (hin : b.in_wires.Nodup) (hout : b.out_wires.Nodup)
    (hports : b.input_ports.Nodup) :
    (∀ w2 ∈ (disconnectWire c w).wires, w2.wid ≠ w.wid) ∧
    disconnectBlockStep w b ∈ (disconnectWire c w).blocks ∧
    w.wid ∉ (disconnectBlockStep w b).in_wires ∧
    w.wid ∉ (disconnectBlockStep w b).out_wires ∧
    (w.wid ∈ b.in_wires → w.to_port ∉ (disconnectBlockStep w b).input_ports) ∧
    (w.wid ∈ b.out_wires → w.wid ∉ b.in_wires →
      (disconnectBlockStep w b).output_port =
        if b.in_wires = [] ∧ b.out_wires.erase w.wid = [] then none
        else b.output_port) := by
  refine ⟨?_, ?_, ?_, ?_, ?_, ?_⟩
  · intro w2 hw2
    simp only [disconnectWire, List.mem_filter] at hw2
    simpa using hw2.2
  · exact List.mem_map_of_mem _ hb
  · rw [step_in_wires]
    split_ifs with h
    · exact hin.not_mem_erase
    · exact h
  · rw [step_out_wires]
    split_ifs with h
    · exact hout.not_mem_erase
    · exact h
  · exact step_input_cleared w b hports
  · exact step_output_reset w b

/-- Witness for C4 (amended) on a concrete one-block, one-wire canvas:
wire 5 ends on the left input port of block 2; deleting it removes the wire
from the incident list and clears the input role of the port. -/
theorem c4_wire_deletion_amended_witness :
    (5 : ℕ) ∉ (disconnectBlockStep wExample bExample).in_wires ∧
    "left" ∉ (disconnectBlockStep wExample bExample).input_ports := by
  have h := c4_wire_deletion_amended cExample wExample bExample
    (by decide) (by decide) (by decide) (by decide)
  exact ⟨h.2.2.1, h.2.2.2.2.1 (by decide)⟩

/-- Witness for C8: a nearly-coincident pair routes as a straight line, and
on the vertical-first pair (0,0) to (100,200) the path points stay on the
three legs, exercised at the start point. -/
theorem c8_routing_geometry_witness :
    updatePath ⟨0, 0⟩ ⟨5, 3⟩ = [.moveTo ⟨0, 0⟩, .lineTo ⟨5, 3⟩] ∧
    onThreeLegsV ⟨0, 0⟩ ⟨100, 200⟩ ⟨0, 0⟩ := by
  constructor
  · exact (c8_routing_geometry ⟨0, 0⟩ ⟨5, 3⟩).1.mp (by norm_num)
  · refine ((c8_routing_geometry ⟨0, 0⟩ ⟨100, 200⟩).2 (by norm_num)).2 (by norm_num) ⟨0, 0⟩ ?_
    have h1 : updatePath ⟨0, 0⟩ ⟨100, 200⟩ =
        .moveTo ⟨0, 0⟩ :: addRoundedPath ⟨0, 0⟩ ⟨0, 120⟩ ⟨100, 120⟩ ⟨100, 200⟩ 15 := by
      norm_num [updatePath]
    rw [h1]
    simp [pathPoints, PathCmd.namedPoints]

end ESP32PLC
